import Mathlib

/-!
Shallow embedding of the cargo-packet subsystem of OpenTTD-patches
(src/src/cargopacket.h) and proofs about it.

Machine integers are modelled as `Nat` / `Int`; `uint16` fields carry their
range as an invariant (`CargoPacket.Valid`), `Money` (`int64`) is modelled as
`Int` and the C++ truncating division on it as `Int.tdiv`.  Methods whose
bodies live in cargopacket.cpp (which is not part of the excerpt) are
modelled from the specification; each such definition says so in its doc
comment.  Fatal assertions are modelled by returning `Option` (`none` is the
assertion failure).
-/

/-- Station identifiers (`StationID`, a 16-bit id in the source). -/
abbrev StationID := Nat

/-- Sentinel station id: the wildcard "any destination" key. -/
def INVALID_STATION : StationID := 0xFFFF

/-- Container for cargo from the same location and time (`struct CargoPacket`).
The anonymous union `loaded_at_xy` / `next_station` is one field here,
`loaded_at_xy`, reinterpreted by context exactly as in the source. -/
structure CargoPacket where
  feeder_share : Int
  count : Nat
  days_in_transit : Nat
  source : Nat
  source_st : StationID
  source_xy : Nat
  loaded_at_xy : Nat
  deriving Repr, DecidableEq

/-- Maximum number of items in a single cargo packet (`UINT16_MAX`). -/
def CargoPacket.MAX_COUNT : Nat := 65535

/-- A live packet's count stays in [1, `MAX_COUNT`]. -/
abbrev CargoPacket.Valid (p : CargoPacket) : Prop :=
  1 ≤ p.count ∧ p.count ≤ CargoPacket.MAX_COUNT

/-- Proportional feeder share for `part` units:
`this->feeder_share * part / static_cast<uint>(this->count)` with the C++
(truncating) `int64` division. -/
def CargoPacket.FeederShare (p : CargoPacket) (part : Nat) : Int :=
  Int.tdiv (p.feeder_share * (part : Int)) (p.count : Int)

/-- Modelled from the spec: `Merge(other)` "absorbs another packet's `count`
and `feeder_share` into `this`; callers must first verify capacity"; its body
is in cargopacket.cpp, which is not in the excerpt.  The absorbed packet is
destroyed by the caller. -/
def CargoPacket.Merge (p cp : CargoPacket) : CargoPacket :=
  { p with count := p.count + cp.count,
           feeder_share := p.feeder_share + cp.feeder_share }

/-- `TryMerge` from the header: refuse if the combined count exceeds
`MAX_COUNT`, otherwise merge.  The result is (return value, `this` after the
call, the other packet after the call: `none` means it was absorbed and
freed). -/
def CargoPacket.TryMerge (p cp : CargoPacket) :
    Bool × CargoPacket × Option CargoPacket :=
  if p.count + cp.count > CargoPacket.MAX_COUNT then (false, p, some cp)
  else (true, p.Merge cp, none)

/-- Modelled from the spec: `Split(new_size)` "carves off `new_size` units
into a new packet, proportionally apportioning `feeder_share`; reduces
`this.count` by `new_size`; fails (programmer error, fatal) if
`new_size >= count`"; its body is in cargopacket.cpp, which is not in the
excerpt.  Returns (retained packet, carved-off packet); the carved-off piece
gets the rounded-down proportional share and the retained piece keeps the
remainder. -/
def CargoPacket.Split (p : CargoPacket) (new_size : Nat) :
    Option (CargoPacket × CargoPacket) :=
  if new_size ≥ p.count then none
  else
    let fs := p.FeederShare new_size
    some ({ p with count := p.count - new_size,
                   feeder_share := p.feeder_share - fs },
          { p with count := new_size, feeder_share := fs })

/-- Modelled from the spec: `Reduce(count)` "shrinks a packet's `count` in
place without producing a sibling"; shrinking by the whole packet or more is
the fatal programmer error of §7; its body is in cargopacket.cpp, which is
not in the excerpt. -/
def CargoPacket.Reduce (p : CargoPacket) (n : Nat) : Option CargoPacket :=
  if n ≥ p.count then none else some { p with count := p.count - n }

/-- Modelled from the spec: the packet constructors take a `uint16` count and
"a packet with count 0 is invalid"; their bodies are in cargopacket.cpp,
which is not in the excerpt.  Construction fails (fatal assertion) outside
[1, `MAX_COUNT`]. -/
def CargoPacket.construct (fs : Int) (count dit src sst sxy leg : Nat) :
    Option CargoPacket :=
  if 1 ≤ count ∧ count ≤ CargoPacket.MAX_COUNT then
    some ⟨fs, count, dit, src, sst, sxy, leg⟩
  else none

/-- Kinds of actions that could be done with packets on move
(`CargoList::MoveToAction`, without the begin/end markers). -/
inductive MoveToAction
  | MTA_TRANSFER
  | MTA_DELIVER
  | MTA_KEEP
  | MTA_LOAD
  deriving DecidableEq, Repr

/-- The `action_counts[NUM_MOVE_TO_ACTION]` array of `VehicleCargoList`. -/
structure ActionCounts where
  transfer : Nat
  deliver : Nat
  keep : Nat
  load : Nat
  deriving Repr, DecidableEq

/-- Read an entry of the `action_counts` array. -/
def ActionCounts.get (a : ActionCounts) : MoveToAction → Nat
  | .MTA_TRANSFER => a.transfer
  | .MTA_DELIVER => a.deliver
  | .MTA_KEEP => a.keep
  | .MTA_LOAD => a.load

/-- Write an entry of the `action_counts` array. -/
def ActionCounts.set (a : ActionCounts) : MoveToAction → Nat → ActionCounts
  | .MTA_TRANSFER, n => { a with transfer := n }
  | .MTA_DELIVER, n => { a with deliver := n }
  | .MTA_KEEP, n => { a with keep := n }
  | .MTA_LOAD, n => { a with load := n }

/-- Sum of the counts of a packet list (what the `count` cache tracks). -/
def sumCounts (ps : List CargoPacket) : Nat :=
  (ps.map CargoPacket.count).sum

/-- Sum of `count * days_in_transit` (what `cargo_days_in_transit` tracks). -/
def ditSum (ps : List CargoPacket) : Nat :=
  (ps.map (fun p => p.count * p.days_in_transit)).sum

/-- Sum of the feeder shares (what the `feeder_share` cache tracks). -/
def fsSum (ps : List CargoPacket) : Int :=
  (ps.map CargoPacket.feeder_share).sum

/-- `VehicleCargoList`: FIFO sequence of packets plus the caches of the
generic base (`count`, `cargo_days_in_transit`) and of the specialization
(`feeder_share`, `action_counts`). -/
structure VehicleCargoList where
  packets : List CargoPacket
  count : Nat
  cargo_days_in_transit : Nat
  feeder_share : Int
  action_counts : ActionCounts
  deriving Repr, DecidableEq

/-- Average days in transit, `CargoList::DaysInTransit()` from the header:
0 on an empty list, otherwise `cargo_days_in_transit / count`. -/
def VehicleCargoList.DaysInTransit (s : VehicleCargoList) : Nat :=
  if s.count = 0 then 0 else s.cargo_days_in_transit / s.count

/-- `VehicleCargoList::Source()` from the header, with the unguarded
`front()` dereference made explicit: `none` is the out-of-bounds access. -/
def VehicleCargoList.Source (s : VehicleCargoList) : Option StationID :=
  if s.count = 0 then some INVALID_STATION
  else s.packets.head?.map CargoPacket.source_st

/-- `VehicleCargoList::TotalCount()`. -/
def VehicleCargoList.TotalCount (s : VehicleCargoList) : Nat := s.count

/-- `VehicleCargoList::StoredCount()`. -/
def VehicleCargoList.StoredCount (s : VehicleCargoList) : Nat :=
  s.count - s.action_counts.load

/-- `VehicleCargoList::ReservedCount()`. -/
def VehicleCargoList.ReservedCount (s : VehicleCargoList) : Nat :=
  s.action_counts.load

/-- The partition invariant checked by `AssertCountConsistency()`:
MTA_KEEP + MTA_DELIVER + MTA_TRANSFER + MTA_LOAD buckets sum to `count`. -/
abbrev VehicleCargoList.PartitionOK (s : VehicleCargoList) : Prop :=
  s.action_counts.keep + s.action_counts.deliver +
    s.action_counts.transfer + s.action_counts.load = s.count

/-- The generic cache contract: `count` equals the sum of the counts of the
packets in the backing container. -/
abbrev VehicleCargoList.CacheOK (s : VehicleCargoList) : Prop :=
  s.count = sumCounts s.packets

/-- `VehicleCargoList::KeepAll()` from the header: zero the DELIVER,
TRANSFER and LOAD buckets and put the whole `count` into KEEP. -/
def VehicleCargoList.KeepAll (s : VehicleCargoList) : VehicleCargoList :=
  { s with action_counts :=
      { transfer := 0, deliver := 0, keep := s.count, load := 0 } }

/-- `VehicleCargoList::Keep(from, max_move)` from the header: assert that
`from` is MTA_DELIVER or MTA_LOAD (`none` is the assertion failure), clamp
`max_move` to the bucket, move that amount from the bucket into KEEP. -/
def VehicleCargoList.Keep (s : VehicleCargoList) (from' : MoveToAction)
    (max_move : Nat) : Option VehicleCargoList :=
  if from' = .MTA_DELIVER ∨ from' = .MTA_LOAD then
    let moved := min (s.action_counts.get from') max_move
    let ac1 := s.action_counts.set from' (s.action_counts.get from' - moved)
    some { s with action_counts := ac1.set .MTA_KEEP (ac1.get .MTA_KEEP + moved) }
  else none

/-- Modelled from the spec: two packets "share source/leg attributes" and may
be deduplicated by `Append`; the `AreMergable` helper lives in
cargopacket.cpp, which is not in the excerpt. -/
def AreMergable (a b : CargoPacket) : Bool :=
  decide (a.days_in_transit = b.days_in_transit) &&
  decide (a.source = b.source) &&
  decide (a.source_st = b.source_st) &&
  decide (a.source_xy = b.source_xy) &&
  decide (a.loaded_at_xy = b.loaded_at_xy)

/-- Merge `cp` into the first resident packet that shares its attributes and
has room for it; `none` if no such packet exists. -/
def mergeFirstInto : List CargoPacket → CargoPacket → Option (List CargoPacket)
  | [], _ => none
  | p :: ps, cp =>
    if AreMergable p cp &&
        decide (p.count + cp.count ≤ CargoPacket.MAX_COUNT) then
      some (p.Merge cp :: ps)
    else
      (mergeFirstInto ps cp).map (p :: ·)

/-- Modelled from the spec: `VehicleCargoList::Append(packet, action)`
"attempts `TryMerge` into an existing resident packet when one shares
source/leg attributes; otherwise appends at the tail"; every cache and the
chosen action bucket grow by the packet's count.  The body is in
cargopacket.cpp, which is not in the excerpt. -/
def VehicleCargoList.Append (s : VehicleCargoList) (cp : CargoPacket)
    (action : MoveToAction) : VehicleCargoList :=
  { s with
    packets :=
      match mergeFirstInto s.packets cp with
      | some l => l
      | none => s.packets ++ [cp],
    count := s.count + cp.count,
    cargo_days_in_transit :=
      s.cargo_days_in_transit + cp.count * cp.days_in_transit,
    feeder_share := s.feeder_share + cp.feeder_share,
    action_counts :=
      s.action_counts.set action (s.action_counts.get action + cp.count) }

/-- One aging tick for a packet: increment `days_in_transit`, saturating at
255. -/
def agePacket (p : CargoPacket) : CargoPacket :=
  if p.days_in_transit < 255 then
    { p with days_in_transit := p.days_in_transit + 1 }
  else p

/-- Modelled from the spec: `AgeCargo()` "increments `days_in_transit` for
every resident packet by one tick, saturating at 255", keeping the transit
cache in step.  The body is in cargopacket.cpp, which is not in the
excerpt. -/
def VehicleCargoList.AgeCargo (s : VehicleCargoList) : VehicleCargoList :=
  { s with
    packets := s.packets.map agePacket,
    cargo_days_in_transit := s.cargo_days_in_transit +
      ((s.packets.filter (fun p => decide (p.days_in_transit < 255))).map
        CargoPacket.count).sum }

/-- Total units of the packets a classifier sends to a given bucket. -/
def bucketCount (ps : List CargoPacket) (f : CargoPacket → MoveToAction)
    (a : MoveToAction) : Nat :=
  ((ps.filter (fun p => decide (f p = a))).map CargoPacket.count).sum

/-- Modelled from the spec: `Stage()` "re-evaluates every resident packet
against this rule, updates `action_counts`, and returns whether there is
anything to unload (TRANSFER+DELIVER nonzero)".  The `ChooseAction`
classification rule and its collaborators are abstracted as the classifier
`f`; the body is in cargopacket.cpp, which is not in the excerpt. -/
def VehicleCargoList.Stage (s : VehicleCargoList)
    (f : CargoPacket → MoveToAction) : VehicleCargoList × Bool :=
  let ac : ActionCounts :=
    { transfer := bucketCount s.packets f .MTA_TRANSFER,
      deliver := bucketCount s.packets f .MTA_DELIVER,
      keep := bucketCount s.packets f .MTA_KEEP,
      load := bucketCount s.packets f .MTA_LOAD }
  ({ s with action_counts := ac }, decide (0 < ac.transfer + ac.deliver))

/-- Remove `n` units from the front of a packet list, splitting the boundary
packet if needed; returns (remaining list, removed packets). -/
def dropUnitsFront : List CargoPacket → Nat → List CargoPacket × List CargoPacket
  | ps, 0 => (ps, [])
  | [], _ + 1 => ([], [])
  | p :: ps, n + 1 =>
    if p.count ≤ n + 1 then
      let r := dropUnitsFront ps (n + 1 - p.count)
      (r.1, p :: r.2)
    else
      ({ p with count := p.count - (n + 1) } :: ps,
       [{ p with count := n + 1 }])

/-- Remove `n` units from the back of a packet list, splitting the boundary
packet if needed; returns (remaining list, removed packets). -/
def dropUnitsBack (ps : List CargoPacket) (n : Nat) :
    List CargoPacket × List CargoPacket :=
  let r := dropUnitsFront ps.reverse n
  (r.1.reverse, r.2.reverse)

/-- Modelled from the spec: `Transfer()` "hands all TRANSFER-bucket cargo to
the current station's waiting list, clearing that bucket"; the TRANSFER
units sit at the front of the staged FIFO list.  Returns the list after the
call and the packets handed over; the body is in cargopacket.cpp, which is
not in the excerpt. -/
def VehicleCargoList.Transfer (s : VehicleCargoList) :
    VehicleCargoList × List CargoPacket :=
  let r := dropUnitsFront s.packets s.action_counts.transfer
  ({ s with
      packets := r.1,
      count := s.count - s.action_counts.transfer,
      cargo_days_in_transit := s.cargo_days_in_transit - ditSum r.2,
      feeder_share := s.feeder_share - fsSum r.2,
      action_counts := { s.action_counts with transfer := 0 } }, r.2)

/-- Modelled from the spec: `Return(dest, max_move)` "gives back up to
`max_move` units of LOAD-bucket (reserved but not loaded) cargo to a station
list"; the LOAD units sit at the back of the staged list.  Returns the list
after the call and the amount moved; the body is in cargopacket.cpp, which
is not in the excerpt. -/
def VehicleCargoList.Return (s : VehicleCargoList) (max_move : Nat) :
    VehicleCargoList × Nat :=
  let moved := min s.action_counts.load max_move
  let r := dropUnitsBack s.packets moved
  ({ s with
      packets := r.1,
      count := s.count - moved,
      cargo_days_in_transit := s.cargo_days_in_transit - ditSum r.2,
      feeder_share := s.feeder_share - fsSum r.2,
      action_counts :=
        { s.action_counts with load := s.action_counts.load - moved } },
   moved)

/-- Modelled from the spec: `Unload(max_move, dest, payment)` "moves
TRANSFER/DELIVER cargo to the station/payment collaborator, up to `max_move`
units"; TRANSFER is drained first, then DELIVER, both at the front of the
staged list.  Returns the list after the call and the amount moved; the body
is in cargopacket.cpp, which is not in the excerpt. -/
def VehicleCargoList.Unload (s : VehicleCargoList) (max_move : Nat) :
    VehicleCargoList × Nat :=
  let t := min s.action_counts.transfer max_move
  let d := min s.action_counts.deliver (max_move - t)
  let moved := t + d
  let r := dropUnitsFront s.packets moved
  ({ s with
      packets := r.1,
      count := s.count - moved,
      cargo_days_in_transit := s.cargo_days_in_transit - ditSum r.2,
      feeder_share := s.feeder_share - fsSum r.2,
      action_counts :=
        { s.action_counts with
            transfer := s.action_counts.transfer - t,
            deliver := s.action_counts.deliver - d } }, moved)

/-- Modelled from the spec: `Shift(max_move, dest)` "moves KEEP-bucket cargo
directly between two vehicles", clamped to the KEEP bucket.  Returns the
list after the call and the amount moved; the body is in cargopacket.cpp,
which is not in the excerpt. -/
def VehicleCargoList.Shift (s : VehicleCargoList) (max_move : Nat) :
    VehicleCargoList × Nat :=
  let moved := min s.action_counts.keep max_move
  let r := dropUnitsFront s.packets moved
  ({ s with
      packets := r.1,
      count := s.count - moved,
      cargo_days_in_transit := s.cargo_days_in_transit - ditSum r.2,
      feeder_share := s.feeder_share - fsSum r.2,
      action_counts :=
        { s.action_counts with keep := s.action_counts.keep - moved } },
   moved)

/-- Modelled from the spec: `Truncate(max_move)` "discards up to `max_move`
units (cargo destroyed, not moved)", dropping from the tail, so the buckets
are drained in LOAD, KEEP, DELIVER, TRANSFER order.  Returns the list after
the call and the amount discarded; the body is in cargopacket.cpp, which is
not in the excerpt. -/
def VehicleCargoList.Truncate (s : VehicleCargoList) (max_move : Nat) :
    VehicleCargoList × Nat :=
  let moved := min s.count max_move
  let l := min s.action_counts.load moved
  let k := min s.action_counts.keep (moved - l)
  let d := min s.action_counts.deliver (moved - l - k)
  let t := min s.action_counts.transfer (moved - l - k - d)
  let r := dropUnitsBack s.packets moved
  ({ s with
      packets := r.1,
      count := s.count - moved,
      cargo_days_in_transit := s.cargo_days_in_transit - ditSum r.2,
      feeder_share := s.feeder_share - fsSum r.2,
      action_counts :=
        { transfer := s.action_counts.transfer - t,
          deliver := s.action_counts.deliver - d,
          keep := s.action_counts.keep - k,
          load := s.action_counts.load - l } }, moved)

/-- Modelled from the spec: `Reroute(avoid, avoid2, ge)` asks the goods-entry
collaborator (abstracted as `g`) for a new next hop for "every resident
packet whose next hop equals `avoid` or `avoid2`" and reassigns it.  The
body is in cargopacket.cpp, which is not in the excerpt. -/
def VehicleCargoList.Reroute (s : VehicleCargoList) (avoid avoid2 : StationID)
    (g : CargoPacket → StationID) : VehicleCargoList :=
  { s with packets := s.packets.map (fun p =>
      if p.loaded_at_xy = avoid ∨ p.loaded_at_xy = avoid2 then
        { p with loaded_at_xy := g p }
      else p) }

/-- Lookup in the `MultiMap` backing a station list (`packets.find(key)`):
`none` when the key has no bucket. -/
def mmFind : List (StationID × List CargoPacket) → StationID →
    Option (List CargoPacket)
  | [], _ => none
  | (k, b) :: rest, key => if k = key then some b else mmFind rest key

/-- `StationCargoList`: a multimap from next-hop station to packet buckets,
plus the caches of the generic base and the `reserved_count` cache. -/
structure StationCargoList where
  packets : List (StationID × List CargoPacket)
  count : Nat
  cargo_days_in_transit : Nat
  reserved_count : Nat
  deriving Repr, DecidableEq

/-- Average days in transit for a station list (`CargoList::DaysInTransit()`
from the header). -/
def StationCargoList.DaysInTransit (s : StationCargoList) : Nat :=
  if s.count = 0 then 0 else s.cargo_days_in_transit / s.count

/-- `StationCargoList::HasCargoFor(next)` from the header: scan the
acceptance stack for a key with a bucket, then fall back to the wildcard
`INVALID_STATION` bucket. -/
def StationCargoList.HasCargoFor (s : StationCargoList)
    (next : List StationID) : Bool :=
  next.any (fun st => (mmFind s.packets st).isSome) ||
    (mmFind s.packets INVALID_STATION).isSome

/-- `StationCargoList::Source()` from the header, with the unguarded
`begin()->second.front()` dereference made explicit: `none` is the
out-of-bounds access. -/
def StationCargoList.Source (s : StationCargoList) : Option StationID :=
  if s.count = 0 then some INVALID_STATION
  else
    match s.packets with
    | [] => none
    | (_, b) :: _ => b.head?.map CargoPacket.source_st

/-- `StationCargoList::AvailableCount()`. -/
def StationCargoList.AvailableCount (s : StationCargoList) : Nat := s.count

/-- `StationCargoList::ReservedCount()`. -/
def StationCargoList.ReservedCount (s : StationCargoList) : Nat :=
  s.reserved_count

/-- `StationCargoList::TotalCount()`. -/
def StationCargoList.TotalCount (s : StationCargoList) : Nat :=
  s.count + s.reserved_count

/-- The generic cache contract for a station list: `count` is the sum of the
counts of the packets in all buckets. -/
abbrev StationCargoList.CacheOK (s : StationCargoList) : Prop :=
  s.count = (s.packets.map (fun kb => sumCounts kb.2)).sum

/-- The `MultiMap` representation invariant: an empty bucket is erased, so
every present bucket is non-empty. -/
abbrev StationCargoList.BucketsNonEmpty (s : StationCargoList) : Prop :=
  ∀ kb ∈ s.packets, kb.2 ≠ []

theorem sumCounts_nil : sumCounts [] = 0 := rfl

theorem sumCounts_cons (p : CargoPacket) (ps : List CargoPacket) :
    sumCounts (p :: ps) = p.count + sumCounts ps := by
  simp [sumCounts]

theorem sumCounts_append (ps qs : List CargoPacket) :
    sumCounts (ps ++ qs) = sumCounts ps + sumCounts qs := by
  simp [sumCounts]

theorem sumCounts_reverse (ps : List CargoPacket) :
    sumCounts ps.reverse = sumCounts ps := by
  simp [sumCounts, List.sum_reverse]

theorem dropUnitsFront_sum (ps : List CargoPacket) (n : Nat) :
    sumCounts (dropUnitsFront ps n).1 = sumCounts ps - n := by
  induction ps generalizing n with
  | nil =>
    cases n with
    | zero => simp [dropUnitsFront]
    | succ m => simp [dropUnitsFront, sumCounts_nil]
  | cons p ps ih =>
    cases n with
    | zero => simp [dropUnitsFront]
    | succ m =>
      simp only [dropUnitsFront]
      by_cases h : p.count ≤ m + 1
      · simp only [if_pos h, ih, sumCounts_cons]
        omega
      · simp only [if_neg h, sumCounts_cons]
        simp only [not_le] at h
        omega

theorem dropUnitsBack_sum (ps : List CargoPacket) (n : Nat) :
    sumCounts (dropUnitsBack ps n).1 = sumCounts ps - n := by
  unfold dropUnitsBack
  simp only []
  rw [sumCounts_reverse, dropUnitsFront_sum, sumCounts_reverse]

theorem mergeFirstInto_sum (ps : List CargoPacket) (cp : CargoPacket)
    (l : List CargoPacket) (h : mergeFirstInto ps cp = some l) :
    sumCounts l = sumCounts ps + cp.count := by
  induction ps generalizing l with
  | nil => simp [mergeFirstInto] at h
  | cons p ps ih =>
    simp only [mergeFirstInto] at h
    by_cases hm : (AreMergable p cp &&
        decide (p.count + cp.count ≤ CargoPacket.MAX_COUNT)) = true
    · rw [if_pos hm] at h
      cases h
      simp [sumCounts_cons, CargoPacket.Merge]
      omega
    · rw [if_neg hm] at h
      rcases Option.map_eq_some'.mp h with ⟨l', hl', rfl⟩
      rw [sumCounts_cons, sumCounts_cons, ih l' hl']
      omega

theorem bucketCount_total (ps : List CargoPacket)
    (f : CargoPacket → MoveToAction) :
    bucketCount ps f .MTA_KEEP + bucketCount ps f .MTA_DELIVER +
      bucketCount ps f .MTA_TRANSFER + bucketCount ps f .MTA_LOAD =
      sumCounts ps := by
  induction ps with
  | nil => rfl
  | cons p ps ih =>
    simp only [bucketCount, List.filter_cons] at *
    cases hf : f p <;>
      simp only [hf, decide_eq_true_eq, reduceCtorEq, decide_True,
        decide_False, if_true, if_false, List.map_cons, List.sum_cons,
        sumCounts_cons] <;>
      omega

theorem sumCounts_map_of_count_eq (ps : List CargoPacket)
    (g : CargoPacket → CargoPacket)
    (h : ∀ p, (g p).count = p.count) :
    sumCounts (ps.map g) = sumCounts ps := by
  simp only [sumCounts, List.map_map]
  congr 1
  apply List.map_congr_left
  intro p _
  exact h p

theorem append_consistent (s : VehicleCargoList) (hP : s.PartitionOK)
    (hC : s.CacheOK) (cp : CargoPacket) (a : MoveToAction) :
    (s.Append cp a).PartitionOK ∧ (s.Append cp a).CacheOK := by
  constructor
  · show _ = _
    simp only [VehicleCargoList.Append]
    cases a <;> simp only [ActionCounts.set, ActionCounts.get] <;> omega
  · show _ = _
    simp only [VehicleCargoList.Append]
    cases h : mergeFirstInto s.packets cp with
    | none => rw [sumCounts_append, sumCounts_cons, sumCounts_nil]; omega
    | some l => rw [mergeFirstInto_sum s.packets cp l h]; omega

theorem ageCargo_consistent (s : VehicleCargoList) (hP : s.PartitionOK)
    (hC : s.CacheOK) :
    s.AgeCargo.PartitionOK ∧ s.AgeCargo.CacheOK := by
  constructor
  · exact hP
  · show _ = _
    simp only [VehicleCargoList.AgeCargo]
    rw [sumCounts_map_of_count_eq]
    · exact hC
    · intro p
      simp only [agePacket]
      split <;> rfl

theorem stage_consistent (s : VehicleCargoList) (hP : s.PartitionOK)
    (hC : s.CacheOK) (f : CargoPacket → MoveToAction) :
    (s.Stage f).1.PartitionOK ∧ (s.Stage f).1.CacheOK := by
  constructor
  · show _ = _
    simp only [VehicleCargoList.Stage]
    rw [bucketCount_total s.packets f]
    exact hC.symm
  · exact hC

theorem transfer_consistent (s : VehicleCargoList) (hP : s.PartitionOK)
    (hC : s.CacheOK) :
    s.Transfer.1.PartitionOK ∧ s.Transfer.1.CacheOK := by
  constructor
  · show _ = _
    simp only [VehicleCargoList.Transfer]
    omega
  · show _ = _
    simp only [VehicleCargoList.Transfer]
    rw [dropUnitsFront_sum]
    omega

theorem return_consistent (s : VehicleCargoList) (hP : s.PartitionOK)
    (hC : s.CacheOK) (m : Nat) :
    (s.Return m).1.PartitionOK ∧ (s.Return m).1.CacheOK := by
  constructor
  · show _ = _
    simp only [VehicleCargoList.Return]
    omega
  · show _ = _
    simp only [VehicleCargoList.Return]
    rw [dropUnitsBack_sum]
    omega

theorem unload_consistent (s : VehicleCargoList) (hP : s.PartitionOK)
    (hC : s.CacheOK) (m : Nat) :
    (s.Unload m).1.PartitionOK ∧ (s.Unload m).1.CacheOK := by
  constructor
  · show _ = _
    simp only [VehicleCargoList.Unload]
    omega
  · show _ = _
    simp only [VehicleCargoList.Unload]
    rw [dropUnitsFront_sum]
    omega

theorem shift_consistent (s : VehicleCargoList) (hP : s.PartitionOK)
    (hC : s.CacheOK) (m : Nat) :
    (s.Shift m).1.PartitionOK ∧ (s.Shift m).1.CacheOK := by
  constructor
  · show _ = _
    simp only [VehicleCargoList.Shift]
    omega
  · show _ = _
    simp only [VehicleCargoList.Shift]
    rw [dropUnitsFront_sum]
    omega

theorem truncate_consistent (s : VehicleCargoList) (hP : s.PartitionOK)
    (hC : s.CacheOK) (m : Nat) :
    (s.Truncate m).1.PartitionOK ∧ (s.Truncate m).1.CacheOK := by
  constructor
  · show _ = _
    simp only [VehicleCargoList.Truncate]
    omega
  · show _ = _
    simp only [VehicleCargoList.Truncate]
    rw [dropUnitsBack_sum]
    omega

theorem reroute_consistent (s : VehicleCargoList) (hP : s.PartitionOK)
    (hC : s.CacheOK) (avoid avoid2 : StationID)
    (g : CargoPacket → StationID) :
    (s.Reroute avoid avoid2 g).PartitionOK ∧
      (s.Reroute avoid avoid2 g).CacheOK := by
  constructor
  · exact hP
  · show _ = _
    simp only [VehicleCargoList.Reroute]
    rw [sumCounts_map_of_count_eq]
    · exact hC
    · intro p
      split <;> rfl

theorem keep_consistent (s : VehicleCargoList) (hP : s.PartitionOK)
    (hC : s.CacheOK) (from' : MoveToAction) (m : Nat)
    (s' : VehicleCargoList) (h : s.Keep from' m = some s') :
    s'.PartitionOK ∧ s'.CacheOK := by
  simp only [VehicleCargoList.Keep] at h
  by_cases hf : from' = .MTA_DELIVER ∨ from' = .MTA_LOAD
  · rw [if_pos hf] at h
    cases h
    rcases hf with hf | hf <;> subst hf <;>
      refine ⟨?_, hC⟩ <;>
      simp only [VehicleCargoList.PartitionOK, ActionCounts.get,
        ActionCounts.set] <;>
      omega
  · rw [if_neg hf] at h
    cases h

theorem keepAll_consistent (s : VehicleCargoList) (hP : s.PartitionOK)
    (hC : s.CacheOK) :
    s.KeepAll.PartitionOK ∧ s.KeepAll.CacheOK := by
  exact ⟨by show _ = _; simp [VehicleCargoList.KeepAll], hC⟩

/-- Sample packet used by witnesses: 50 units from station 1. -/
def pktA : CargoPacket := ⟨10, 50, 3, 0, 1, 2, 7⟩

/-- Sample packet used by witnesses: 30 units with the same attributes. -/
def pktB : CargoPacket := ⟨4, 30, 3, 0, 1, 2, 7⟩

/-- Sample packet used by witnesses: 65,000 units. -/
def pkt65000 : CargoPacket := ⟨0, 65000, 0, 0, 1, 2, 7⟩

/-- Sample packet used by witnesses: 1,000 units. -/
def pkt1000 : CargoPacket := ⟨0, 1000, 0, 0, 1, 2, 7⟩

/-- C1: `p.TryMerge(q)` merges `q` into `p` and returns true if and only if
`p.count + q.count ≤ 65535` (counts are `Nat` here, so the sum is exact, as
in the C++ where the `uint16` operands are promoted to `int`); when the
combined count would exceed 65535 it returns false and leaves both packets
unchanged. -/
theorem C1_tryMerge_capacity (p q : CargoPacket) :
    ((p.TryMerge q).1 = true ↔ p.count + q.count ≤ 65535) ∧
    ((p.TryMerge q).1 = true →
      (p.TryMerge q).2.1 = p.Merge q ∧
      (p.TryMerge q).2.1.count = p.count + q.count ∧
      (p.TryMerge q).2.2 = none) ∧
    ((p.TryMerge q).1 = false →
      (p.TryMerge q).2.1 = p ∧ (p.TryMerge q).2.2 = some q) := by
  by_cases h : p.count + q.count > CargoPacket.MAX_COUNT
  · simp only [CargoPacket.TryMerge, if_pos h]
    simp only [CargoPacket.MAX_COUNT] at h
    refine ⟨?_, ?_, ?_⟩
    · simp only [Bool.false_eq_true, false_iff]
      omega
    · intro habs
      exact absurd habs (by simp)
    · intro _
      simp
  · simp only [CargoPacket.TryMerge, if_neg h]
    simp only [CargoPacket.MAX_COUNT, gt_iff_lt, not_lt] at h
    refine ⟨?_, ?_, ?_⟩
    · simpa using h
    · intro _
      simp [CargoPacket.Merge]
    · intro habs
      exact absurd habs (by simp)

/-- C1 witness: for a 65,000-unit packet and a 1,000-unit packet `TryMerge`
fails and both packets are unchanged. -/
theorem C1_tryMerge_capacity_witness :
    (pkt65000.TryMerge pkt1000).1 = false ∧
    (pkt65000.TryMerge pkt1000).2.1 = pkt65000 ∧
    (pkt65000.TryMerge pkt1000).2.2 = some pkt1000 := by
  have h := C1_tryMerge_capacity pkt65000 pkt1000
  have hfalse : (pkt65000.TryMerge pkt1000).1 = false := by decide
  exact ⟨hfalse, (h.2.2 hfalse).1, (h.2.2 hfalse).2⟩

/-- C3: for live packets (count in [1, 65535]), construction, `Split`,
`Merge` under the capacity precondition its callers must establish,
`TryMerge` and `Reduce` all yield packets whose count stays in
[1, 65535]. -/
theorem C3_count_bounds (p q : CargoPacket) (hp : p.Valid) (hq : q.Valid)
    (fs : Int) (c dit src sst sxy leg k n : Nat) :
    (∀ r, CargoPacket.construct fs c dit src sst sxy leg = some r →
      r.Valid) ∧
    (∀ a b, p.Split k = some (a, b) → 1 ≤ k → a.Valid ∧ b.Valid) ∧
    (p.count + q.count ≤ CargoPacket.MAX_COUNT → (p.Merge q).Valid) ∧
    ((p.TryMerge q).1 = true → (p.TryMerge q).2.1.Valid) ∧
    ((p.TryMerge q).1 = false → (p.TryMerge q).2.1.Valid ∧
      ∀ r, (p.TryMerge q).2.2 = some r → r.Valid) ∧
    (∀ r, p.Reduce n = some r → r.Valid) := by
  obtain ⟨hp1, hp2⟩ := hp
  obtain ⟨hq1, hq2⟩ := hq
  simp only [CargoPacket.MAX_COUNT] at hp2 hq2
  refine ⟨?_, ?_, ?_, ?_, ?_, ?_⟩
  · intro r hr
    unfold CargoPacket.construct at hr
    split at hr
    · rename_i hcond
      cases hr
      exact hcond
    · cases hr
  · intro a b hab hk
    unfold CargoPacket.Split at hab
    split at hab
    · cases hab
    · rename_i hlt
      simp only [ge_iff_le, not_le] at hlt
      cases hab
      refine ⟨⟨?_, ?_⟩, ?_, ?_⟩ <;> simp only [CargoPacket.MAX_COUNT] <;>
        omega
  · intro hcap
    simp only [CargoPacket.MAX_COUNT] at hcap
    refine ⟨?_, ?_⟩ <;>
      simp only [CargoPacket.Merge, CargoPacket.MAX_COUNT] <;> omega
  · intro htrue
    by_cases hgt : p.count + q.count > CargoPacket.MAX_COUNT
    · unfold CargoPacket.TryMerge at htrue
      rw [if_pos hgt] at htrue
      exact absurd htrue (by simp)
    · unfold CargoPacket.TryMerge
      rw [if_neg hgt]
      simp only [CargoPacket.MAX_COUNT, gt_iff_lt, not_lt] at hgt
      refine ⟨?_, ?_⟩ <;>
        simp only [CargoPacket.Merge, CargoPacket.MAX_COUNT] <;> omega
  · intro hfalse
    by_cases hgt : p.count + q.count > CargoPacket.MAX_COUNT
    · unfold CargoPacket.TryMerge
      rw [if_pos hgt]
      refine ⟨⟨hp1, ?_⟩, ?_⟩
      · simp only [CargoPacket.MAX_COUNT]
        omega
      · intro r hr
        cases hr
        refine ⟨hq1, ?_⟩
        simp only [CargoPacket.MAX_COUNT]
        omega
    · unfold CargoPacket.TryMerge at hfalse
      rw [if_neg hgt] at hfalse
      exact absurd hfalse (by simp)
  · intro r hr
    unfold CargoPacket.Reduce at hr
    split at hr
    · cases hr
    · rename_i hlt
      simp only [ge_iff_le, not_le] at hlt
      cases hr
      refine ⟨?_, ?_⟩ <;> simp only [CargoPacket.MAX_COUNT] <;> omega

/-- C3 witness: merging the 50- and 30-unit sample packets and reducing the
50-unit one by 10 both stay within [1, 65535]. -/
theorem C3_count_bounds_witness :
    (pktA.Merge pktB).Valid ∧
    (⟨10, 40, 3, 0, 1, 2, 7⟩ : CargoPacket).Valid := by
  have h := C3_count_bounds pktA pktB (by decide) (by decide)
    3 20 1 0 1 2 7 10 10
  exact ⟨h.2.2.1 (by decide),
    h.2.2.2.2.2 ⟨10, 40, 3, 0, 1, 2, 7⟩ (by decide)⟩

/-- C5: `FeederShare(part)` is the floor of the exact proportional share
`feeder_share * part / count`; `FeederShare(count)` is the whole share; a
split carves off `FeederShare(k)` for the new packet while the retained
piece keeps the remainder, the two summing back to the original share. -/
theorem C5_feeder_share_proportional (p : CargoPacket) (part : Nat)
    (hc : 1 ≤ p.count) (hfs : 0 ≤ p.feeder_share) :
    p.FeederShare part =
      Int.fdiv (p.feeder_share * (part : Int)) ((p.count : Int)) ∧
    p.FeederShare p.count = p.feeder_share ∧
    (∀ a b k, p.Split k = some (a, b) →
      b.feeder_share = p.FeederShare k ∧
      a.feeder_share = p.feeder_share - p.FeederShare k ∧
      a.feeder_share + b.feeder_share = p.feeder_share) := by
  have hcz : ((p.count : Int)) ≠ 0 := by
    simp only [ne_eq, Nat.cast_eq_zero]
    omega
  refine ⟨?_, ?_, ?_⟩
  · unfold CargoPacket.FeederShare
    exact (Int.fdiv_eq_tdiv (by positivity) (by positivity)).symm
  · unfold CargoPacket.FeederShare
    exact Int.mul_tdiv_cancel p.feeder_share hcz
  · intro a b k hab
    unfold CargoPacket.Split at hab
    split at hab
    · cases hab
    · cases hab
      exact ⟨rfl, rfl, by ring⟩

/-- C5 witness: at a 50-unit packet with share 10, a 20-unit part gets the
floored proportional share and a split at 20 divides the share exactly. -/
theorem C5_feeder_share_proportional_witness :
    pktA.FeederShare 20 =
      Int.fdiv (pktA.feeder_share * (20 : Int)) ((pktA.count : Int)) ∧
    pktA.FeederShare pktA.count = pktA.feeder_share := by
  have h := C5_feeder_share_proportional pktA 20 (by decide) (by decide)
  exact ⟨h.1, h.2.1⟩

/-- C6: `DaysInTransit()` returns 0 on an empty list and
`cargo_days_in_transit / count` otherwise, for both list kinds; the query is
total. -/
theorem C6_days_in_transit_total (v : VehicleCargoList)
    (st : StationCargoList) :
    (v.count = 0 → v.DaysInTransit = 0) ∧
    (v.count ≠ 0 → v.DaysInTransit = v.cargo_days_in_transit / v.count) ∧
    (st.count = 0 → st.DaysInTransit = 0) ∧
    (st.count ≠ 0 → st.DaysInTransit = st.cargo_days_in_transit / st.count) := by
  refine ⟨?_, ?_, ?_, ?_⟩ <;> intro h <;>
    simp [VehicleCargoList.DaysInTransit, StationCargoList.DaysInTransit, h]

/-- C6 witness: evaluated on a one-packet vehicle list and a one-bucket
station list. -/
theorem C6_days_in_transit_total_witness :
    VehicleCargoList.DaysInTransit ⟨[pktA], 50, 150, 10, ⟨0, 0, 50, 0⟩⟩ = 3 ∧
    StationCargoList.DaysInTransit ⟨[(3, [pktB])], 30, 90, 0⟩ = 3 := by
  have h := C6_days_in_transit_total ⟨[pktA], 50, 150, 10, ⟨0, 0, 50, 0⟩⟩
    ⟨[(3, [pktB])], 30, 90, 0⟩
  refine ⟨?_, ?_⟩
  · rw [h.2.1 (by decide)]
    decide
  · rw [h.2.2.2 (by decide)]
    decide

/-- Sample consistent vehicle cargo list used by witnesses: two packets,
80 units, 50 in KEEP and 30 in TRANSFER. -/
def vSample : VehicleCargoList := ⟨[pktA, pktB], 80, 240, 14, ⟨30, 0, 50, 0⟩⟩

/-- C2: from any consistent vehicle cargo list state (the four buckets
partition the cached count and the count cache matches the packets), every
mutating operation — Append, AgeCargo, Stage, Transfer, Return, Unload,
Shift, Truncate, Reroute, Keep, KeepAll — yields a state in which the four
action buckets again sum to the cached count; the cache contract is also
preserved, so the partition invariant holds after every sequence of
mutating operations. -/
theorem C2_partition_invariant (s : VehicleCargoList) (hP : s.PartitionOK)
    (hC : s.CacheOK) (cp : CargoPacket) (a : MoveToAction)
    (f : CargoPacket → MoveToAction) (m : Nat) (avoid avoid2 : StationID)
    (g : CargoPacket → StationID) :
    ((s.Append cp a).PartitionOK ∧ (s.Append cp a).CacheOK) ∧
    (s.AgeCargo.PartitionOK ∧ s.AgeCargo.CacheOK) ∧
    ((s.Stage f).1.PartitionOK ∧ (s.Stage f).1.CacheOK) ∧
    (s.Transfer.1.PartitionOK ∧ s.Transfer.1.CacheOK) ∧
    ((s.Return m).1.PartitionOK ∧ (s.Return m).1.CacheOK) ∧
    ((s.Unload m).1.PartitionOK ∧ (s.Unload m).1.CacheOK) ∧
    ((s.Shift m).1.PartitionOK ∧ (s.Shift m).1.CacheOK) ∧
    ((s.Truncate m).1.PartitionOK ∧ (s.Truncate m).1.CacheOK) ∧
    ((s.Reroute avoid avoid2 g).PartitionOK ∧
      (s.Reroute avoid avoid2 g).CacheOK) ∧
    (∀ from' s', s.Keep from' m = some s' → s'.PartitionOK ∧ s'.CacheOK) ∧
    (s.KeepAll.PartitionOK ∧ s.KeepAll.CacheOK) :=
  ⟨append_consistent s hP hC cp a, ageCargo_consistent s hP hC,
   stage_consistent s hP hC f, transfer_consistent s hP hC,
   return_consistent s hP hC m, unload_consistent s hP hC m,
   shift_consistent s hP hC m, truncate_consistent s hP hC m,
   reroute_consistent s hP hC avoid avoid2 g,
   fun from' s' h => keep_consistent s hP hC from' m s' h,
   keepAll_consistent s hP hC⟩

/-- C2 witness: a concrete consistent two-packet list keeps the partition
invariant through Transfer, Stage and Truncate. -/
theorem C2_partition_invariant_witness :
    vSample.Transfer.1.PartitionOK ∧
    (vSample.Stage (fun _ => .MTA_DELIVER)).1.PartitionOK ∧
    (vSample.Truncate 60).1.PartitionOK := by
  have h := C2_partition_invariant vSample (by decide) (by decide)
    pkt1000 .MTA_KEEP (fun _ => .MTA_DELIVER) 60 7 INVALID_STATION
    (fun _ => 3)
  exact ⟨h.2.2.2.1.1, h.2.2.1.1, h.2.2.2.2.2.2.2.1.1⟩

/-- C4: for every station cargo list state — in particular after every
mutating operation — `AvailableCount() + ReservedCount() = TotalCount()`;
the identity is definitional in the header, where `TotalCount()` returns
`count + reserved_count`. -/
theorem C4_station_counts (s : StationCargoList) :
    s.AvailableCount + s.ReservedCount = s.TotalCount := rfl

/-- C7: `Keep(from, max_move)` requires `from` to be MTA_DELIVER or
MTA_LOAD (`none` is the fatal assertion) and moves exactly
`min(action_counts[from], max_move)` units from that bucket into KEEP,
leaving the cached count, the other two buckets, `feeder_share`, the
transit cache and the packet container unchanged. -/
theorem C7_keep_reclassifies (s : VehicleCargoList) (from' : MoveToAction)
    (m : Nat) :
    ((s.Keep from' m).isSome ↔
      (from' = .MTA_DELIVER ∨ from' = .MTA_LOAD)) ∧
    (∀ s', s.Keep from' m = some s' →
      s'.action_counts.get from' =
        s.action_counts.get from' - min (s.action_counts.get from') m ∧
      s'.action_counts.keep =
        s.action_counts.keep + min (s.action_counts.get from') m ∧
      (∀ b, b ≠ from' → b ≠ .MTA_KEEP →
        s'.action_counts.get b = s.action_counts.get b) ∧
      s'.count = s.count ∧
      s'.feeder_share = s.feeder_share ∧
      s'.cargo_days_in_transit = s.cargo_days_in_transit ∧
      s'.packets = s.packets) := by
  constructor
  · unfold VehicleCargoList.Keep
    by_cases hf : from' = .MTA_DELIVER ∨ from' = .MTA_LOAD
    · rw [if_pos hf]
      simpa using hf
    · rw [if_neg hf]
      simpa using hf
  · intro s' h
    unfold VehicleCargoList.Keep at h
    by_cases hf : from' = .MTA_DELIVER ∨ from' = .MTA_LOAD
    · rw [if_pos hf] at h
      cases h
      rcases hf with hf | hf <;> subst hf <;>
        refine ⟨rfl, rfl, ?_, rfl, rfl, rfl, rfl⟩ <;>
        · intro b hb1 hb2
          cases b
          · rfl
          · first | rfl | exact absurd rfl hb1
          · exact absurd rfl hb2
          · first | rfl | exact absurd rfl hb1
    · rw [if_neg hf] at h
      cases h

/-- C7 witness: keeping 10 units back from the KEEP=50/TRANSFER=30 sample
list after staging 20 into LOAD. -/
theorem C7_keep_reclassifies_witness :
    ∀ s', VehicleCargoList.Keep ⟨[pktA, pktB], 80, 240, 14, ⟨30, 0, 30, 20⟩⟩
        .MTA_LOAD 10 = some s' →
      s'.action_counts.load = 10 ∧ s'.action_counts.keep = 40 := by
  have h := C7_keep_reclassifies ⟨[pktA, pktB], 80, 240, 14, ⟨30, 0, 30, 20⟩⟩
    .MTA_LOAD 10
  intro s' hs
  have h2 := h.2 s' hs
  refine ⟨?_, ?_⟩
  · have := h2.1
    simpa using this
  · have := h2.2.1
    simpa using this

/-- C8: after `KeepAll()` the TRANSFER, DELIVER and LOAD buckets are 0 and
the KEEP bucket equals the cached count, so the whole cargo is classified
KEEP and the partition invariant holds afterwards regardless of the
previous bucket values; the cached count and the packets are unchanged. -/
theorem C8_keepAll_keeps_everything (s : VehicleCargoList) :
    s.KeepAll.action_counts.transfer = 0 ∧
    s.KeepAll.action_counts.deliver = 0 ∧
    s.KeepAll.action_counts.load = 0 ∧
    s.KeepAll.action_counts.keep = s.KeepAll.count ∧
    s.KeepAll.PartitionOK ∧
    s.KeepAll.count = s.count ∧
    s.KeepAll.packets = s.packets := by
  refine ⟨rfl, rfl, rfl, rfl, ?_, rfl, rfl⟩
  show _ = _
  simp [VehicleCargoList.KeepAll]

theorem mmFind_mem (m : List (StationID × List CargoPacket)) (k : StationID)
    (b : List CargoPacket) (h : mmFind m k = some b) : (k, b) ∈ m := by
  induction m with
  | nil => cases h
  | cons kb rest ih =>
    cases kb with
    | mk k' b' =>
      simp only [mmFind] at h
      by_cases hk : k' = k
      · rw [if_pos hk] at h
        cases h
        subst hk
        exact List.mem_cons_self _ _
      · rw [if_neg hk] at h
        exact List.mem_cons_of_mem _ (ih h)

/-- C9: `HasCargoFor(stack)` is true if and only if some station in the
acceptance stack is a key with a (necessarily non-empty, by the multimap
invariant) bucket, or the wildcard key `INVALID_STATION` has a bucket; an
empty list yields false for every stack. -/
theorem C9_hasCargoFor_correct (s : StationCargoList)
    (next : List StationID) (hb : s.BucketsNonEmpty) :
    (s.HasCargoFor next = true ↔
      ((∃ st ∈ next, ∃ b, mmFind s.packets st = some b ∧ b ≠ []) ∨
        (∃ b, mmFind s.packets INVALID_STATION = some b ∧ b ≠ []))) ∧
    (s.packets = [] → s.HasCargoFor next = false) := by
  constructor
  · unfold StationCargoList.HasCargoFor
    rw [Bool.or_eq_true, List.any_eq_true]
    constructor
    · rintro (⟨st, hst, hsome⟩ | hsome)
      · obtain ⟨b, hbval⟩ := Option.isSome_iff_exists.mp hsome
        exact Or.inl ⟨st, hst, b, hbval, hb _ (mmFind_mem _ _ _ hbval)⟩
      · obtain ⟨b, hbval⟩ := Option.isSome_iff_exists.mp hsome
        exact Or.inr ⟨b, hbval, hb _ (mmFind_mem _ _ _ hbval)⟩
    · rintro (⟨st, hst, b, hbval, _⟩ | ⟨b, hbval, _⟩)
      · exact Or.inl ⟨st, hst, by simp [hbval]⟩
      · exact Or.inr (by simp [hbval])
  · intro hnil
    unfold StationCargoList.HasCargoFor
    rw [hnil]
    simp [mmFind]

/-- C9 witness: a list with one bucket under key 5 answers true for the
stack [4, 5]; the empty list answers false for it. -/
theorem C9_hasCargoFor_correct_witness :
    StationCargoList.HasCargoFor ⟨[(5, [pktB])], 30, 90, 0⟩ [4, 5] = true ∧
    StationCargoList.HasCargoFor ⟨[], 0, 0, 0⟩ [4, 5] = false := by
  have h1 := C9_hasCargoFor_correct ⟨[(5, [pktB])], 30, 90, 0⟩ [4, 5]
    (by decide)
  have h2 := C9_hasCargoFor_correct ⟨[], 0, 0, 0⟩ [4, 5] (by decide)
  refine ⟨?_, h2.2 rfl⟩
  exact h1.1.mpr (Or.inl ⟨5, by decide, [pktB], rfl, by decide⟩)

/-- C10: `Source()` on an empty cargo list returns `INVALID_STATION`
without touching the front packet; on a non-empty list (under the cache
contract and, for stations, the multimap invariant) it returns the source
station of the first packet of the first bucket, and the guarded access
never faults (`isSome`). -/
theorem C10_source_guarded (v : VehicleCargoList) (st : StationCargoList)
    (hv : v.CacheOK) (hs : st.CacheOK) (hb : st.BucketsNonEmpty) :
    (v.count = 0 → v.Source = some INVALID_STATION) ∧
    (v.count ≠ 0 →
      ∃ p ps, v.packets = p :: ps ∧ v.Source = some p.source_st) ∧
    v.Source.isSome = true ∧
    (st.count = 0 → st.Source = some INVALID_STATION) ∧
    (st.count ≠ 0 → ∃ k b kbs p pr, st.packets = (k, b) :: kbs ∧
      b = p :: pr ∧ st.Source = some p.source_st) ∧
    st.Source.isSome = true := by
  have hvlist : v.count ≠ 0 → ∃ p ps, v.packets = p :: ps := by
    intro h0
    cases hp : v.packets with
    | nil =>
      rw [hv, hp] at h0
      exact absurd rfl h0
    | cons p ps => exact ⟨p, ps, rfl⟩
  have hslist : st.count ≠ 0 → ∃ k b kbs, st.packets = (k, b) :: kbs := by
    intro h0
    cases hp : st.packets with
    | nil =>
      rw [hs, hp] at h0
      exact absurd rfl h0
    | cons kb kbs =>
      obtain ⟨k, b⟩ := kb
      exact ⟨k, b, kbs, rfl⟩
  refine ⟨?_, ?_, ?_, ?_, ?_, ?_⟩
  · intro h0
    unfold VehicleCargoList.Source
    rw [if_pos h0]
  · intro h0
    obtain ⟨p, ps, hp⟩ := hvlist h0
    refine ⟨p, ps, hp, ?_⟩
    unfold VehicleCargoList.Source
    rw [if_neg h0, hp]
    rfl
  · by_cases h0 : v.count = 0
    · unfold VehicleCargoList.Source
      rw [if_pos h0]
      rfl
    · obtain ⟨p, ps, hp⟩ := hvlist h0
      unfold VehicleCargoList.Source
      rw [if_neg h0, hp]
      rfl
  · intro h0
    unfold StationCargoList.Source
    rw [if_pos h0]
  · intro h0
    obtain ⟨k, b, kbs, hp⟩ := hslist h0
    have hbne : b ≠ [] := hb (k, b) (by rw [hp]; exact List.mem_cons_self _ _)
    cases hbb : b with
    | nil => exact absurd hbb hbne
    | cons p pr =>
      refine ⟨k, b, kbs, p, pr, hp, hbb, ?_⟩
      unfold StationCargoList.Source
      rw [if_neg h0, hp, hbb]
      rfl
  · by_cases h0 : st.count = 0
    · unfold StationCargoList.Source
      rw [if_pos h0]
      rfl
    · obtain ⟨k, b, kbs, hp⟩ := hslist h0
      have hbne : b ≠ [] :=
        hb (k, b) (by rw [hp]; exact List.mem_cons_self _ _)
      cases hbb : b with
      | nil => exact absurd hbb hbne
      | cons p pr =>
        unfold StationCargoList.Source
        rw [if_neg h0, hp, hbb]
        rfl

/-- C10 witness: the empty vehicle list answers the sentinel; the sample
vehicle list and a one-bucket station list answer a real source without
faulting. -/
theorem C10_source_guarded_witness :
    VehicleCargoList.Source ⟨[], 0, 0, 0, ⟨0, 0, 0, 0⟩⟩ =
      some INVALID_STATION ∧
    (VehicleCargoList.Source vSample).isSome = true ∧
    (StationCargoList.Source ⟨[(5, [pktB])], 30, 90, 0⟩).isSome = true := by
  have h1 := C10_source_guarded ⟨[], 0, 0, 0, ⟨0, 0, 0, 0⟩⟩
    ⟨[(5, [pktB])], 30, 90, 0⟩ (by decide) (by decide) (by decide)
  have h2 := C10_source_guarded vSample ⟨[(5, [pktB])], 30, 90, 0⟩
    (by decide) (by decide) (by decide)
  exact ⟨h1.1 rfl, h2.2.2.1, h2.2.2.2.2.2⟩
